import Mathlib

/-!
Verification of the adaptive allocation decision pipeline of the
sentiment-portfolio repository.

The Python modules are shallowly embedded: exact rationals (`ℚ`) stand for
Python floats, association lists (`List (String × ℚ)`) for dicts, an explicit
outcome datatype for the LLM/HTTP backend, and `Option` for fallible calls.
Each definition is a direct translation of the function of the same name in
the source; the theorems below settle the specification's claims about them.
-/

/-- Python's `round` to the nearest integer, on exact rationals.  For a
rational `q = n / d` (with `d > 0`) this is `⌊q + 1/2⌋ = (2n + d) ediv 2d`;
exact ties round up rather than to even, a deviation from CPython that no
claim depends on. -/
def ratRound (q : ℚ) : ℤ :=
  (2 * q.num + (q.den : ℤ)).ediv (2 * (q.den : ℤ))

/-- Python `round(x, 3)`. -/
def round3 (q : ℚ) : ℚ := (ratRound (q * 1000) : ℚ) / 1000

/-- Python `round(x, 2)`. -/
def round2 (q : ℚ) : ℚ := (ratRound (q * 100) : ℚ) / 100

/-- Python `round(x, 1)`. -/
def round1 (q : ℚ) : ℚ := (ratRound (q * 10) : ℚ) / 10

/-! ## LearningModel: `daily_learning.py` -/

/-- One entry of `model['sector_sensitivity']` (`daily_learning.py`,
`portfolio_engine.py`). -/
structure SensitivityRecord where
  sentiment_multiplier : ℚ
  correct_predictions : ℕ
  total_predictions : ℕ
  deriving DecidableEq, Repr

/-- The prediction-correctness rule of `daily_learn` (`daily_learning.py`
lines 139-150): the if/elif chain classifying one sector's prediction
against the realized price change. -/
def is_correct_prediction (predicted actual : ℚ) : Bool :=
  if predicted > 0.1 ∧ actual > 0 then true
  else if predicted < -0.1 ∧ actual < 0 then true
  else if |predicted| ≤ 0.1 ∧ |actual| ≤ 1 then true
  else false

/-- The per-sector sensitivity update of `daily_learn` (`daily_learning.py`
lines 160-181): bump the prediction counters and move the sentiment
multiplier by ±2%, clamped to [0.5, 2.0]. -/
def update_sector_sensitivity (sens : SensitivityRecord) (predicted actual : ℚ) :
    SensitivityRecord :=
  if is_correct_prediction predicted actual then
    { sentiment_multiplier := min 2 (sens.sentiment_multiplier * 1.02)
      correct_predictions := sens.correct_predictions + 1
      total_predictions := sens.total_predictions + 1 }
  else
    { sentiment_multiplier := max 0.5 (sens.sentiment_multiplier * 0.98)
      correct_predictions := sens.correct_predictions
      total_predictions := sens.total_predictions + 1 }

/-! ## FeedbackLearner: `phase2_feedback.py` -/

/-- One line of `data/phase2_decisions.jsonl` as written by `log_decision`.
Timestamps are modelled as naturals; `timestamp < cutoff` stands for the
source's `decision_date < now - evaluation_days`. -/
structure Phase2Decision where
  timestamp : ℕ
  sector : String
  sentiment : ℚ
  action : String
  confidence : ℚ
  original_allocation : List (String × ℚ)
  final_allocation : List (String × ℚ)
  reasoning : String
  evaluated : Bool
  deriving DecidableEq, Repr

/-- One line of `data/phase2_evaluations.jsonl` as written by
`evaluate_decision`. -/
structure EvaluationRecord where
  decision_timestamp : ℕ
  sector : String
  action : String
  confidence : ℚ
  original_return : ℚ
  final_return : ℚ
  delta : ℚ
  outperformed : Bool
  deriving DecidableEq, Repr

/-- The inner `normalize` of `evaluate_decision` (`phase2_feedback.py`
lines 161-165): scale weights to sum to 1 when the total is positive,
otherwise return the allocation unchanged. -/
def normalize_allocation (alloc : List (String × ℚ)) : List (String × ℚ) :=
  let total := (alloc.map (·.2)).sum
  if total > 0 then alloc.map (fun p => (p.1, p.2 / total)) else alloc

/-- `calculate_portfolio_return` (`phase2_feedback.py` lines 131-144).
`fetch ts ticker` abstracts `fetch_price_change` over the evaluation window
starting at the decision's timestamp; `none` is an unavailable price. -/
def calculate_portfolio_return (fetch : ℕ → String → Option ℚ) (ts : ℕ)
    (alloc : List (String × ℚ)) : Option ℚ :=
  let entries := alloc.filterMap (fun p => (fetch ts p.1).map (fun c => (c * p.2, p.2)))
  let totalReturn := (entries.map (·.1)).sum
  let totalWeight := (entries.map (·.2)).sum
  if totalWeight > 0 then some (totalReturn / totalWeight * 100) else none

/-- `evaluate_decision` (`phase2_feedback.py` lines 147-194) without the
append to the evaluations file: compute both normalized portfolio returns
and build the record, or `none` when either return is unavailable.  Note
the function never consults `d.evaluated`. -/
def evaluate_decision (fetch : ℕ → String → Option ℚ) (d : Phase2Decision) :
    Option EvaluationRecord :=
  let original := normalize_allocation d.original_allocation
  let final := normalize_allocation d.final_allocation
  match calculate_portfolio_return fetch d.timestamp original,
        calculate_portfolio_return fetch d.timestamp final with
  | some originalReturn, some finalReturn =>
      some { decision_timestamp := d.timestamp
             sector := d.sector
             action := d.action
             confidence := d.confidence
             original_return := round3 originalReturn
             final_return := round3 finalReturn
             delta := round3 (finalReturn - originalReturn)
             outperformed := decide (finalReturn > originalReturn) }
  | _, _ => none

/-- `evaluate_decision` including its side effect on the evaluations log
(the append at `phase2_feedback.py` lines 190-192): returns the new log and
the produced record. -/
def evaluate_decision_log (fetch : ℕ → String → Option ℚ)
    (evals : List EvaluationRecord) (d : Phase2Decision) :
    List EvaluationRecord × Option EvaluationRecord :=
  match evaluate_decision fetch d with
  | some r => (evals ++ [r], some r)
  | none => (evals, none)

/-- `get_pending_evaluations` (`phase2_feedback.py` lines 88-105). -/
def get_pending_evaluations (cutoff : ℕ) (decisions : List Phase2Decision) :
    List Phase2Decision :=
  decisions.filter (fun d => !d.evaluated && d.timestamp < cutoff)

/-- `mark_decisions_evaluated` (`phase2_feedback.py` lines 223-240): rewrite
the decisions file, setting `evaluated` on every decision whose timestamp is
in the given list. -/
def mark_decisions_evaluated (decisions : List Phase2Decision)
    (timestamps : List ℕ) : List Phase2Decision :=
  decisions.map (fun d =>
    if d.timestamp ∈ timestamps then { d with evaluated := true } else d)

/-- The state after `run_evaluations`: the rewritten decisions file, the
evaluations file, and the list returned to the caller. -/
structure RunEvaluationsResult where
  decisions : List Phase2Decision
  evaluations : List EvaluationRecord
  results : List EvaluationRecord
  deriving DecidableEq, Repr

/-- `run_evaluations` (`phase2_feedback.py` lines 197-220): evaluate every
pending decision, collecting the non-`None` results (the loop's
`if result: results.append(result)` is `filterMap`), then mark ALL pending
decisions as evaluated regardless of whether they produced a record. -/
def run_evaluations (fetch : ℕ → String → Option ℚ) (cutoff : ℕ)
    (decisions : List Phase2Decision) (evaluations : List EvaluationRecord) :
    RunEvaluationsResult :=
  let pending := get_pending_evaluations cutoff decisions
  let results := pending.filterMap (evaluate_decision fetch)
  { decisions := mark_decisions_evaluated decisions (pending.map (·.timestamp))
    evaluations := evaluations ++ results
    results := results }

/-- `data/phase2_feedback_config.json` (`phase2_feedback.py` lines 27-33). -/
structure FeedbackConfig where
  min_confidence_threshold : ℚ
  evaluation_days : ℕ
  learning_rate : ℚ
  min_evaluations_for_learning : ℕ
  deriving DecidableEq, Repr

/-- One action row of the `stats` dict of `get_performance_stats`
(`phase2_feedback.py` lines 248-252): running count, outperform count and
delta list for one action key. -/
structure ActionStats where
  count : ℕ
  outperformed : ℕ
  deltas : List ℚ
  deriving DecidableEq, Repr

/-- The action-keyed rows of the `stats` dict of `get_performance_stats`:
the dict is a PLAIN dict holding only the keys `"adjust"` and `"keep"`
(plus the display-only `"by_confidence"` defaultdict, omitted here). -/
structure PerformanceStats where
  adjust : ActionStats
  keep : ActionStats
  deriving DecidableEq, Repr

/-- The per-record loop of `get_performance_stats` (`phase2_feedback.py`
lines 254-273): `stats[action]["count"] += 1` etc.  Because `stats` is a
plain dict with only the `"adjust"` and `"keep"` rows, a record with ANY
other action — such as the `keep_low_conf` records that
`run_phase2_refinement` logs and `run_evaluations` evaluates — raises a
`KeyError` and aborts the whole computation, modelled as `.error`.  (The
freak action `"by_confidence"` would abort with a TypeError instead; both
are aborts.)  The per-confidence-bucket tallies of lines 268-273 feed only
status displays and are omitted. -/
def tally_evaluations (stats : PerformanceStats) :
    List EvaluationRecord → Except String PerformanceStats
  | [] => .ok stats
  | e :: rest =>
    if e.action = "adjust" then
      tally_evaluations
        { stats with adjust :=
            { count := stats.adjust.count + 1
              outperformed := stats.adjust.outperformed + (if e.outperformed then 1 else 0)
              deltas := stats.adjust.deltas ++ [e.delta] } } rest
    else if e.action = "keep" then
      tally_evaluations
        { stats with keep :=
            { count := stats.keep.count + 1
              outperformed := stats.keep.outperformed + (if e.outperformed then 1 else 0)
              deltas := stats.keep.deltas ++ [e.delta] } } rest
    else .error ("KeyError: " ++ e.action)

/-- `get_performance_stats` (`phase2_feedback.py` lines 243-287) on the
list of evaluation records (the missing-file `None` case is an I/O-level
early return of the caller and is not modelled). -/
def get_performance_stats (evaluations : List EvaluationRecord) :
    Except String PerformanceStats :=
  tally_evaluations { adjust := ⟨0, 0, []⟩, keep := ⟨0, 0, []⟩ } evaluations

/-- The `win_rate` of one action row (`phase2_feedback.py` line 279): only
set when the row has deltas, and read back by `learn_from_evaluations`
with `.get("win_rate", 0)`. -/
def stats_win_rate (s : ActionStats) : ℚ :=
  if s.deltas.isEmpty then 0 else (s.outperformed : ℚ) / (s.count : ℚ)

/-- The `avg_delta` of one action row (`phase2_feedback.py` line 278),
read back with `.get("avg_delta", 0)`. -/
def stats_avg_delta (s : ActionStats) : ℚ :=
  if s.deltas.isEmpty then 0 else s.deltas.sum / (s.deltas.length : ℚ)

/-- `learn_from_evaluations` (`phase2_feedback.py` lines 290-333), reduced
to its effect on the config: a `KeyError` from `get_performance_stats`
propagates (the function has no handler); otherwise no change below
`min_evaluations_for_learning` adjust evaluations; lower the threshold by
`learning_rate` (floor 0.4) on `win_rate > 0.6` and positive mean delta;
raise it by `learning_rate` (ceiling 0.9) on `win_rate < 0.4` or mean delta
below −0.5; otherwise unchanged. -/
def learn_from_evaluations (config : FeedbackConfig)
    (evaluations : List EvaluationRecord) : Except String FeedbackConfig :=
  match get_performance_stats evaluations with
  | .error e => .error e
  | .ok stats =>
    if stats.adjust.count < config.min_evaluations_for_learning then .ok config
    else if stats_win_rate stats.adjust > 0.6 ∧ stats_avg_delta stats.adjust > 0 then
      .ok { config with
        min_confidence_threshold := max 0.4 (config.min_confidence_threshold - config.learning_rate) }
    else if stats_win_rate stats.adjust < 0.4 ∨ stats_avg_delta stats.adjust < -0.5 then
      .ok { config with
        min_confidence_threshold := min 0.9 (config.min_confidence_threshold + config.learning_rate) }
    else .ok config

/-- `should_apply_adjustment` (`phase2_feedback.py` lines 336-347). -/
def should_apply_adjustment (config : FeedbackConfig) (confidence : ℚ) : Bool :=
  decide (confidence ≥ config.min_confidence_threshold)

/-! ## RefinementEngine: `refined_strategy.py` -/

/-- A successfully decoded JSON object from the refinement backend
(`refined_strategy.py` line 193).  The prompt asks for exactly these
fields; `risk_notes` is irrelevant to every claim and omitted. -/
structure ParsedRefinement where
  action : String
  reasoning : String
  new_allocation : List (String × ℚ)
  confidence : ℚ
  deriving DecidableEq, Repr

/-- Outcome of the `requests.post` call and the subsequent JSON extraction
in `refine_allocation` (`refined_strategy.py` lines 171-218): an exception
(timeout etc.), a non-200 status, a 200 response whose body fails
`json.loads`, or a 200 response decoding to a `ParsedRefinement`. -/
inductive BackendOutcome where
  | exn (msg : String)
  | httpError (statusCode : ℕ)
  | parseError (err : String)
  | parsed (d : ParsedRefinement)
  deriving DecidableEq, Repr

/-- The result dict of `refine_allocation`, restricted to the fields the
claims are about. -/
structure RefinementDecision where
  sector : String
  sentiment_score : ℚ
  original_allocation : List (String × ℚ)
  action : String
  reasoning : String
  new_allocation : List (String × ℚ)
  confidence : ℚ
  warning : Option String
  deriving DecidableEq, Repr

/-- `refine_allocation` (`refined_strategy.py` lines 127-223).
`embeddings` is the list of tickers with a company profile in
`company_embeddings.json`.  If no allocated ticker has a profile the
function short-circuits (lines 159-164) without touching the backend;
otherwise the backend outcome decides the result: a decoded response is
copied into the result verbatim (line 194, with the sum-to-100 warning of
lines 197-200), and every failure path keeps the original allocation with
confidence 0 and the error in `reasoning`. -/
def refine_allocation (embeddings : List String) (sector : String)
    (sentiment_score : ℚ) (current_allocation : List (String × ℚ))
    (backend : BackendOutcome) : RefinementDecision :=
  let tickers := current_allocation.map (·.1)
  let haveEmbeddings := tickers.filter (fun t => embeddings.contains t)
  if haveEmbeddings.isEmpty then
    { sector := sector, sentiment_score := sentiment_score
      original_allocation := current_allocation
      action := "keep", reasoning := "No embeddings available for refinement"
      new_allocation := current_allocation, confidence := 0, warning := none }
  else
    match backend with
    | .parsed d =>
        let total : ℚ := (d.new_allocation.map (·.2)).sum
        { sector := sector, sentiment_score := sentiment_score
          original_allocation := current_allocation
          action := d.action, reasoning := d.reasoning
          new_allocation := d.new_allocation, confidence := d.confidence
          warning := if |total - 100| > 5 then some "allocation sum warning" else none }
    | .parseError err =>
        { sector := sector, sentiment_score := sentiment_score
          original_allocation := current_allocation
          action := "keep", reasoning := "JSON parse error: " ++ err
          new_allocation := current_allocation, confidence := 0, warning := none }
    | .httpError code =>
        { sector := sector, sentiment_score := sentiment_score
          original_allocation := current_allocation
          action := "keep", reasoning := "Ollama error: " ++ toString code
          new_allocation := current_allocation, confidence := 0, warning := none }
    | .exn msg =>
        { sector := sector, sentiment_score := sentiment_score
          original_allocation := current_allocation
          action := "keep", reasoning := "Exception: " ++ msg
          new_allocation := current_allocation, confidence := 0, warning := none }

/-! ## AllocationEngine (Phase 1): `ollama_portfolio.py` / `ollama_portfolio_v2.py` -/

/-- One element of `selected_assets` after parsing. -/
structure SelectedAsset where
  ticker : String
  weight : ℚ
  amount : ℚ
  deriving DecidableEq, Repr

/-- ASCII uppercase on one character, modelling Python `str.upper()` for the
ticker symbols the fallback scans for. -/
def upperChar (c : Char) : Char := c.toUpper

/-- Python `needle in haystack.upper()`: substring test after
uppercasing the haystack. -/
def mentioned_in (needle haystack : String) : Bool :=
  decide (List.IsInfix needle.data (haystack.data.map upperChar))

/-- `parse_portfolio_response` (`ollama_portfolio.py` lines 166-212; the
inline copy in `ollama_portfolio_v2.select_assets` lines 93-128 is
identical).  `parsedAssets` abstracts the regex JSON extraction plus
`json.loads`: `some selected` is a successful parse with its
`selected_assets` list of (ticker, weight) pairs, `none` is no JSON found
or a decode error, which falls through to the lenient
mentioned-ticker fallback. -/
def parse_portfolio_response (parsedAssets : Option (List (String × ℚ)))
    (responseText : String) (availableTickers : List String) (budget : ℚ) :
    Option (List SelectedAsset) :=
  match parsedAssets with
  | some selected =>
      let totalWeight := (selected.map (·.2)).sum
      let normalized :=
        if totalWeight > 0 then
          selected.map (fun a =>
            { ticker := a.1, weight := a.2 / totalWeight
              amount := round2 (a.2 / totalWeight * budget) })
        else
          selected.map (fun a => { ticker := a.1, weight := a.2, amount := 0 })
      some (normalized.filter (fun a => availableTickers.contains a.ticker))
  | none =>
      let validTickers := availableTickers.dedup
      let mentioned := validTickers.filter (fun t => mentioned_in t responseText)
      if mentioned.isEmpty then none
      else
        let w := 1 / (mentioned.length : ℚ)
        some ((mentioned.take 5).map (fun t =>
          { ticker := t, weight := w, amount := round2 (w * budget) }))

/-! ## Two-phase integration: `ollama_portfolio_v2.py` / `two_phase_strategy.py` -/

/-- The decision `run_phase2_refinement` hands to `log_decision`
(`ollama_portfolio_v2.py` lines 236-244). -/
structure Phase2LogEntry where
  sector : String
  sentiment : ℚ
  action : String
  confidence : ℚ
  original_allocation : List (String × ℚ)
  final_allocation : List (String × ℚ)
  reasoning : String
  deriving DecidableEq, Repr

/-- Result of `run_phase2_refinement`: the (possibly rewritten) Phase-1
asset list and the decision logged for feedback learning (`none` when the
feedback module is unavailable or the ticker list was empty). -/
structure Phase2RunResult where
  selected_assets : List SelectedAsset
  logged : Option Phase2LogEntry
  deriving DecidableEq, Repr

/-- `run_phase2_refinement` (`ollama_portfolio_v2.py` lines 153-254).
`feedbackEnabled` models the optional `phase2_feedback` import succeeding;
`config` is the loaded feedback config; `embeddings`/`backend` feed the
inner `refine_allocation` call.  An `adjust` outcome is demoted to
`keep_low_conf` when feedback is enabled and `should_apply_adjustment`
rejects the confidence; otherwise the refined allocation replaces the
Phase-1 assets. -/
def run_phase2_refinement (feedbackEnabled : Bool) (config : FeedbackConfig)
    (embeddings : List String) (backend : BackendOutcome) (sector : String)
    (sentiment : ℚ) (phase1Assets : List SelectedAsset) : Phase2RunResult :=
  if phase1Assets.isEmpty then
    { selected_assets := phase1Assets, logged := none }
  else
    let currentAllocation := phase1Assets.map (fun a => (a.ticker, round1 (a.weight * 100)))
    let refinement := refine_allocation embeddings sector sentiment currentAllocation backend
    let confidence := refinement.confidence
    let newAllocation := refinement.new_allocation
    let blocked := refinement.action == "adjust" && feedbackEnabled &&
      !(should_apply_adjustment config confidence)
    let action := if blocked then "keep_low_conf" else refinement.action
    let applyAdjustment := refinement.action == "adjust" && !blocked
    let selected :=
      if applyAdjustment then
        let budget := (phase1Assets.map (·.amount)).sum
        newAllocation.map (fun p =>
          { ticker := p.1, weight := p.2 / 100, amount := round2 (p.2 / 100 * budget) })
      else phase1Assets
    let finalAllocation := if applyAdjustment then newAllocation else currentAllocation
    { selected_assets := selected
      logged :=
        if feedbackEnabled then
          some { sector := sector, sentiment := sentiment, action := action
                 confidence := confidence, original_allocation := currentAllocation
                 final_allocation := finalAllocation, reasoning := refinement.reasoning }
        else none }

/-- The final-allocation step of `run_both_phases` (`two_phase_strategy.py`
lines 284-290): the refined allocation is used whenever the Phase-2 action
is `adjust`, with no confidence gate. -/
def run_both_phases_final (phase1Allocation : List (String × ℚ))
    (p2 : RefinementDecision) : List (String × ℚ) :=
  if p2.action == "adjust" then p2.new_allocation else phase1Allocation

/-! ## ScenarioAllocator: `portfolio_engine.py` -/

/-- `config['sectors']` (`portfolio_engine.py` line 30). -/
def trackedSectors : List String :=
  ["XLK", "XLV", "XLF", "XLY", "XLP", "XLE", "ICLN", "XLI", "XLB", "XLU", "XLRE", "XLC", "CRYPTO"]

/-- `defensive_base` (`portfolio_engine.py` line 315). -/
def defensiveBase : List String := ["XLU", "XLP", "XLV", "XLRE", "XLF"]

/-- The trailing `total = sum(...); {k: v/total*100}` normalization used by
the momentum, defensive and contrarian branches of `calculate_rebalance`. -/
def normalize_to_100 (allocations : List (String × ℚ)) : List (String × ℚ) :=
  let total := (allocations.map (·.2)).sum
  allocations.map (fun p => (p.1, p.2 / total * 100))

/-- `calculate_rebalance` (`portfolio_engine.py` lines 269-352).  `scores s`
models `sector_scores.get(s, {}).get('score', 0)`.  The `aggressive` branch
sorts the sectors by descending score (`sorted(..., reverse=True)` is a
stable sort, hence `mergeSort` with the ≥ comparator) and gives the top 3
a weight of 30 and everyone else 1; an unknown scenario falls through to
the empty dict. -/
def calculate_rebalance (scenario : String) (scores : String → ℚ) :
    List (String × ℚ) :=
  if scenario == "spy_only" then [("SPY", 100)]
  else if scenario == "benchmark" then
    trackedSectors.map (fun s => (s, 100 / (trackedSectors.length : ℚ)))
  else if scenario == "momentum" then
    normalize_to_100 (trackedSectors.map (fun s =>
      (s, max 2 (min 20 (100 / (trackedSectors.length : ℚ) + scores s * 50)))))
  else if scenario == "aggressive" then
    let sorted := trackedSectors.mergeSort (fun a b => scores b ≤ scores a)
    let top3 := sorted.take 3
    trackedSectors.map (fun s => (s, if s ∈ top3 then (30 : ℚ) else 1))
  else if scenario == "defensive" then
    normalize_to_100 (trackedSectors.map (fun s =>
      let base : ℚ := if s ∈ defensiveBase then 15 else 3
      (s, if scores s > 0.4 then base + 5
          else if scores s < -0.3 then max 1 (base - 5)
          else base)))
  else if scenario == "contrarian" then
    normalize_to_100 (trackedSectors.map (fun s =>
      (s, max 2 (min 20 (100 / (trackedSectors.length : ℚ) + -(scores s) * 50)))))
  else []

/-! ## SentimentStore aggregation: `harvester.py` -/

/-- ASCII lowercase on one character, modelling Python `str.lower()` on
titles and keywords. -/
def lowerChar (c : Char) : Char := c.toLower

/-- Python `keyword.lower() in title_lower`: substring test after
lowercasing both sides. -/
def keyword_matches (title keyword : String) : Bool :=
  decide (List.IsInfix (keyword.data.map lowerChar) (title.data.map lowerChar))

/-- `classify_sectors` (`harvester.py` lines 116-127): every sector one of
whose keywords occurs in the lowercased title, or `["general"]` when none
match.  `sectors` pairs each sector code with its keyword list. -/
def classify_sectors (title : String) (sectors : List (String × List String)) :
    List String :=
  let matched := (sectors.filter (fun si => si.2.any (fun kw => keyword_matches title kw))).map (·.1)
  if matched.isEmpty then ["general"] else matched

/-- One output row of `aggregate_sentiment`. -/
structure SectorSentiment where
  score : ℚ
  count : ℕ
  signal : String
  deriving DecidableEq, Repr

/-- Appending one score to one sector's bucket: the body of
`sector_data[sector]['scores'].append(sentiment)` guarded by
`if sector in sector_data` (`harvester.py` lines 160-163). -/
def append_score (st : List (String × List ℚ)) (k : String) (v : ℚ) :
    List (String × List ℚ) :=
  st.map (fun p => if p.1 = k then (p.1, p.2 ++ [v]) else p)

/-- The double loop of `aggregate_sentiment` (`harvester.py` lines 156-163)
filling the per-sector score buckets: each headline is `(title, sectors)`
and contributes its score to every listed sector present in the state. -/
def bucket_headlines (score : String → ℚ) (st : List (String × List ℚ))
    (headlines : List (String × List String)) : List (String × List ℚ) :=
  headlines.foldl (fun acc h =>
    h.2.foldl (fun acc2 sec => append_score acc2 sec (score h.1)) acc) st

/-- The BUY/SELL/HOLD thresholds of `aggregate_sentiment`
(`harvester.py` line 173). -/
def signal_of (avg : ℚ) : String :=
  if avg > 0.25 then "BUY" else if avg < -0.25 then "SELL" else "HOLD"

/-- `aggregate_sentiment` (`harvester.py` lines 151-178), with
`simple_sentiment` abstracted as the `score` function on titles.  Buckets
are initialized for every sector code plus `general`, filled by the double
loop, and every nonempty bucket yields a row whose score is the mean of its
member scores rounded to 3 decimals.  The `top_positive`/`top_negative`
display fields are omitted. -/
def aggregate_sentiment (score : String → ℚ)
    (headlines : List (String × List String)) (sectorCodes : List String) :
    List (String × SectorSentiment) :=
  let init := (sectorCodes ++ ["general"]).map (fun c => (c, ([] : List ℚ)))
  let data := bucket_headlines score init headlines
  (data.filter (fun p => !p.2.isEmpty)).map (fun p =>
    let avg := p.2.sum / (p.2.length : ℚ)
    (p.1, { score := round3 avg, count := p.2.length, signal := signal_of avg }))

/-- The sentiment pipeline of `harvest_all` (`harvester.py` lines 252-258):
classify every unique headline into sectors, then aggregate. -/
def harvest_sector_sentiment (score : String → ℚ) (titles : List String)
    (sectors : List (String × List String)) : List (String × SectorSentiment) :=
  aggregate_sentiment score
    (titles.map (fun t => (t, classify_sectors t sectors)))
    (sectors.map (·.1))

/-! ## Theorems -/

/-- C5: a single LearningModel update classifies the prediction as correct
iff (predicted > 0.1 and actual > 0) or (predicted < −0.1 and actual < 0)
or (|predicted| ≤ 0.1 and |actual| ≤ 1), multiplies the multiplier by 1.02
capped at 2.0 when correct and by 0.98 floored at 0.5 when incorrect, and
(starting inside [0.5, 2.0]) the multiplier stays inside [0.5, 2.0]. -/
theorem c5_learning_update (sens : SensitivityRecord) (predicted actual : ℚ)
    (hlo : 0.5 ≤ sens.sentiment_multiplier) (hhi : sens.sentiment_multiplier ≤ 2) :
    (is_correct_prediction predicted actual = true ↔
      (predicted > 0.1 ∧ actual > 0) ∨ (predicted < -0.1 ∧ actual < 0) ∨
        (|predicted| ≤ 0.1 ∧ |actual| ≤ 1)) ∧
    ((update_sector_sensitivity sens predicted actual).sentiment_multiplier =
      if is_correct_prediction predicted actual then
        min 2 (sens.sentiment_multiplier * 1.02)
      else max 0.5 (sens.sentiment_multiplier * 0.98)) ∧
    0.5 ≤ (update_sector_sensitivity sens predicted actual).sentiment_multiplier ∧
    (update_sector_sensitivity sens predicted actual).sentiment_multiplier ≤ 2 := by
  refine ⟨?_, ?_, ?_, ?_⟩
  · unfold is_correct_prediction
    split_ifs with h1 h2 h3
    · exact iff_of_true rfl (Or.inl h1)
    · exact iff_of_true rfl (Or.inr (Or.inl h2))
    · exact iff_of_true rfl (Or.inr (Or.inr h3))
    · exact iff_of_false (by simp) (fun h => h.elim h1 (fun h2' => h2'.elim h2 h3))
  · unfold update_sector_sensitivity
    split_ifs <;> rfl
  · unfold update_sector_sensitivity
    split_ifs
    · exact le_min (by norm_num) (by nlinarith)
    · exact le_max_left _ _
  · unfold update_sector_sensitivity
    split_ifs
    · exact min_le_left _ _
    · exact max_le (by norm_num) (by nlinarith)

/-- Witness for C5 at the spec's learning scenario: sector predicted 0.2
(bullish), actual +1.5 (correct), multiplier starting at 1.0. -/
theorem c5_witness :
    0.5 ≤ (update_sector_sensitivity ⟨1, 0, 0⟩ 0.2 1.5).sentiment_multiplier ∧
    (update_sector_sensitivity ⟨1, 0, 0⟩ 0.2 1.5).sentiment_multiplier ≤ 2 := by
  have h := c5_learning_update ⟨1, 0, 0⟩ 0.2 1.5 (by norm_num) (by norm_num)
  exact ⟨h.2.2.1, h.2.2.2⟩

/-- C4: on an evaluations file of five winning adjust records, the default
config (threshold 0.6, learning rate 0.05, minimum 5) is lowered to 0.55
exactly as claimed; but appending a single `keep_low_conf` record — which
this pipeline's own gate logs and `run_evaluations` evaluates — makes
`learn_from_evaluations` abort with a KeyError inside
`get_performance_stats` instead of performing the claimed update. -/
theorem c4_keep_low_conf_crash :
    learn_from_evaluations ⟨0.6, 3, 0.05, 5⟩
      [⟨0, "XLK", "adjust", 0.8, 1, 2, 1, true⟩, ⟨1, "XLV", "adjust", 0.8, 1, 2, 1, true⟩,
       ⟨2, "XLF", "adjust", 0.8, 1, 2, 1, true⟩, ⟨3, "XLE", "adjust", 0.8, 1, 2, 1, true⟩,
       ⟨4, "XLU", "adjust", 0.8, 1, 2, 1, true⟩] = .ok ⟨0.55, 3, 0.05, 5⟩ ∧
    learn_from_evaluations ⟨0.6, 3, 0.05, 5⟩
      [⟨0, "XLK", "adjust", 0.8, 1, 2, 1, true⟩, ⟨1, "XLV", "adjust", 0.8, 1, 2, 1, true⟩,
       ⟨2, "XLF", "adjust", 0.8, 1, 2, 1, true⟩, ⟨3, "XLE", "adjust", 0.8, 1, 2, 1, true⟩,
       ⟨4, "XLU", "adjust", 0.8, 1, 2, 1, true⟩,
       ⟨5, "XLK", "keep_low_conf", 0.55, 1, 1, 0, false⟩] =
      .error "KeyError: keep_low_conf" := by
  constructor
  · have hst : get_performance_stats
        [⟨0, "XLK", "adjust", 0.8, 1, 2, 1, true⟩, ⟨1, "XLV", "adjust", 0.8, 1, 2, 1, true⟩,
         ⟨2, "XLF", "adjust", 0.8, 1, 2, 1, true⟩, ⟨3, "XLE", "adjust", 0.8, 1, 2, 1, true⟩,
         ⟨4, "XLU", "adjust", 0.8, 1, 2, 1, true⟩] =
        .ok ⟨⟨5, 5, [1, 1, 1, 1, 1]⟩, ⟨0, 0, []⟩⟩ := by rfl
    rw [learn_from_evaluations, hst]
    norm_num [stats_win_rate, stats_avg_delta, max_def]
  · have hst : get_performance_stats
        [⟨0, "XLK", "adjust", 0.8, 1, 2, 1, true⟩, ⟨1, "XLV", "adjust", 0.8, 1, 2, 1, true⟩,
         ⟨2, "XLF", "adjust", 0.8, 1, 2, 1, true⟩, ⟨3, "XLE", "adjust", 0.8, 1, 2, 1, true⟩,
         ⟨4, "XLU", "adjust", 0.8, 1, 2, 1, true⟩,
         ⟨5, "XLK", "keep_low_conf", 0.55, 1, 1, 0, false⟩] =
        .error "KeyError: keep_low_conf" := by rfl
    rw [learn_from_evaluations, hst]

/-- C6: `refine_allocation` is never worse than a no-op.  With no company
profile for any allocated ticker the result is `keep` with confidence 0 and
the original allocation, independent of what the backend would return (no
backend call); with profiles present, every backend failure (exception,
non-success status, unparsable JSON) yields `keep`, confidence 0, the
original allocation and the error captured in `reasoning`. -/
theorem c6_refine_allocation_noop_on_failure (embeddings : List String)
    (sector : String) (s : ℚ) (alloc : List (String × ℚ)) (backend : BackendOutcome) :
    ((alloc.map (·.1)).filter (fun t => embeddings.contains t) = [] →
      (∀ b2, refine_allocation embeddings sector s alloc backend =
        refine_allocation embeddings sector s alloc b2) ∧
      (refine_allocation embeddings sector s alloc backend).action = "keep" ∧
      (refine_allocation embeddings sector s alloc backend).confidence = 0 ∧
      (refine_allocation embeddings sector s alloc backend).new_allocation = alloc) ∧
    ((alloc.map (·.1)).filter (fun t => embeddings.contains t) ≠ [] →
      (∀ msg, backend = BackendOutcome.exn msg →
        (refine_allocation embeddings sector s alloc backend).action = "keep" ∧
        (refine_allocation embeddings sector s alloc backend).confidence = 0 ∧
        (refine_allocation embeddings sector s alloc backend).new_allocation = alloc ∧
        (refine_allocation embeddings sector s alloc backend).reasoning = "Exception: " ++ msg) ∧
      (∀ code, backend = BackendOutcome.httpError code →
        (refine_allocation embeddings sector s alloc backend).action = "keep" ∧
        (refine_allocation embeddings sector s alloc backend).confidence = 0 ∧
        (refine_allocation embeddings sector s alloc backend).new_allocation = alloc ∧
        (refine_allocation embeddings sector s alloc backend).reasoning = "Ollama error: " ++ toString code) ∧
      (∀ err, backend = BackendOutcome.parseError err →
        (refine_allocation embeddings sector s alloc backend).action = "keep" ∧
        (refine_allocation embeddings sector s alloc backend).confidence = 0 ∧
        (refine_allocation embeddings sector s alloc backend).new_allocation = alloc ∧
        (refine_allocation embeddings sector s alloc backend).reasoning = "JSON parse error: " ++ err)) := by
  constructor
  · intro hempty
    have he : ((alloc.map (·.1)).filter (fun t => embeddings.contains t)).isEmpty = true := by
      rw [hempty]; rfl
    refine ⟨fun b2 => ?_, ?_, ?_, ?_⟩ <;>
      simp only [refine_allocation, he, if_pos]
  · intro hne
    have he : ((alloc.map (·.1)).filter (fun t => embeddings.contains t)).isEmpty = false := by
      exact List.isEmpty_eq_false.mpr hne
    refine ⟨fun msg hb => ?_, fun code hb => ?_, fun err hb => ?_⟩ <;>
      subst hb <;> simp only [refine_allocation, he] <;> simp

/-- Witness for C6: profiles exist for the allocated ticker and the backend
times out; the result keeps the original allocation with confidence 0 and
the exception text in the reasoning. -/
theorem c6_witness :
    (refine_allocation ["AAPL"] "XLK" 0 [("AAPL", 100)] (BackendOutcome.exn "timeout")).action = "keep" ∧
    (refine_allocation ["AAPL"] "XLK" 0 [("AAPL", 100)] (BackendOutcome.exn "timeout")).confidence = 0 ∧
    (refine_allocation ["AAPL"] "XLK" 0 [("AAPL", 100)] (BackendOutcome.exn "timeout")).new_allocation = [("AAPL", 100)] ∧
    (refine_allocation ["AAPL"] "XLK" 0 [("AAPL", 100)] (BackendOutcome.exn "timeout")).reasoning = "Exception: " ++ "timeout" :=
  ((c6_refine_allocation_noop_on_failure ["AAPL"] "XLK" 0 [("AAPL", 100)]
    (BackendOutcome.exn "timeout")).2 (by decide)).1 "timeout" rfl

/-- C7 as amended: `action = keep` forces `new_allocation =
original_allocation` on every path where the engine itself sets the action
(the no-profile short-circuit and all backend-failure paths); on a
successfully parsed backend response the decision — including its
`new_allocation` — is copied verbatim, whatever its action is. -/
theorem c7_keep_preserves_allocation (embeddings : List String) (sector : String)
    (s : ℚ) (alloc : List (String × ℚ)) (backend : BackendOutcome) :
    ((∀ d, backend ≠ BackendOutcome.parsed d) →
      (refine_allocation embeddings sector s alloc backend).action = "keep" ∧
      (refine_allocation embeddings sector s alloc backend).new_allocation = alloc) ∧
    (∀ d, backend = BackendOutcome.parsed d →
      (alloc.map (·.1)).filter (fun t => embeddings.contains t) ≠ [] →
      (refine_allocation embeddings sector s alloc backend).action = d.action ∧
      (refine_allocation embeddings sector s alloc backend).new_allocation = d.new_allocation) := by
  constructor
  · intro hnp
    rcases hB : ((alloc.map (·.1)).filter (fun t => embeddings.contains t)).isEmpty with _ | _
    · cases backend with
      | parsed d => exact absurd rfl (hnp d)
      | exn msg => simp only [refine_allocation, hB] <;> simp
      | httpError code => simp only [refine_allocation, hB] <;> simp
      | parseError err => simp only [refine_allocation, hB] <;> simp
    · simp only [refine_allocation, hB] <;> simp
  · intro d hb hne
    have he : ((alloc.map (·.1)).filter (fun t => embeddings.contains t)).isEmpty = false :=
      List.isEmpty_eq_false.mpr hne
    subst hb
    simp only [refine_allocation, he] <;> simp

/-- Counterexample for C7 as stated: the backend returns a successfully
parsed response with `action = "keep"` whose `new_allocation` differs from
the original allocation, and `refine_allocation` copies it verbatim. -/
theorem c7_counterexample :
    (refine_allocation ["AAPL"] "XLK" 0 [("AAPL", 100)]
      (BackendOutcome.parsed ⟨"keep", "looks fine", [("MSFT", 100)], 0.5⟩)).action = "keep" ∧
    (refine_allocation ["AAPL"] "XLK" 0 [("AAPL", 100)]
      (BackendOutcome.parsed ⟨"keep", "looks fine", [("MSFT", 100)], 0.5⟩)).new_allocation = [("MSFT", 100)] ∧
    ([("MSFT", (100 : ℚ))] : List (String × ℚ)) ≠ [("AAPL", 100)] := by
  refine ⟨?_, ?_, by simp⟩ <;> simp [refine_allocation]

/-- Witness for C7 (amended) at a failing backend: a parse error keeps the
original allocation. -/
theorem c7_witness :
    (refine_allocation ["AAPL"] "XLK" 0 [("AAPL", 100)] (BackendOutcome.parseError "bad json")).action = "keep" ∧
    (refine_allocation ["AAPL"] "XLK" 0 [("AAPL", 100)] (BackendOutcome.parseError "bad json")).new_allocation = [("AAPL", 100)] :=
  (c7_keep_preserves_allocation ["AAPL"] "XLK" 0 [("AAPL", 100)]
    (BackendOutcome.parseError "bad json")).1 (fun d h => by cases h)

/-- C3 (amended): in `run_phase2_refinement` with the feedback module
available, an `adjust` refinement whose confidence is below
`min_confidence_threshold` is not applied: the decision is logged as
`keep_low_conf` with the Phase-1 allocation as final allocation, and the
selected assets are exactly the Phase-1 assets.  (The
`two_phase_strategy.run_both_phases` path applies every `adjust`
unconditionally — see the counterexample.) -/
theorem c3_confidence_gate (config : FeedbackConfig) (embeddings : List String)
    (backend : BackendOutcome) (sector : String) (sentiment : ℚ)
    (assets : List SelectedAsset) (hne : assets ≠ [])
    (hadj : (refine_allocation embeddings sector sentiment
      (assets.map (fun a => (a.ticker, round1 (a.weight * 100)))) backend).action = "adjust")
    (hconf : (refine_allocation embeddings sector sentiment
      (assets.map (fun a => (a.ticker, round1 (a.weight * 100)))) backend).confidence <
      config.min_confidence_threshold) :
    (run_phase2_refinement true config embeddings backend sector sentiment assets).selected_assets = assets ∧
    (run_phase2_refinement true config embeddings backend sector sentiment assets).logged =
      some { sector := sector, sentiment := sentiment, action := "keep_low_conf"
             confidence := (refine_allocation embeddings sector sentiment
               (assets.map (fun a => (a.ticker, round1 (a.weight * 100)))) backend).confidence
             original_allocation := assets.map (fun a => (a.ticker, round1 (a.weight * 100)))
             final_allocation := assets.map (fun a => (a.ticker, round1 (a.weight * 100)))
             reasoning := (refine_allocation embeddings sector sentiment
               (assets.map (fun a => (a.ticker, round1 (a.weight * 100)))) backend).reasoning } := by
  have hE : assets.isEmpty = false := List.isEmpty_eq_false.mpr hne
  have hS : should_apply_adjustment config (refine_allocation embeddings sector sentiment
      (assets.map (fun a => (a.ticker, round1 (a.weight * 100)))) backend).confidence = false := by
    simp only [should_apply_adjustment]
    exact decide_eq_false (not_le.mpr hconf)
  simp only [run_phase2_refinement, hE, hS, hadj]
  simp

/-- Witness for C3: a parsed backend `adjust` at confidence 0.55 against
the default threshold 0.6 leaves the Phase-1 assets untouched. -/
theorem c3_witness :
    (run_phase2_refinement true ⟨0.6, 3, 0.05, 5⟩ ["AAPL"]
      (BackendOutcome.parsed ⟨"adjust", "rotate", [("MSFT", 100)], 0.55⟩)
      "XLK" 0.5 [⟨"AAPL", 1, 10000⟩]).selected_assets = [⟨"AAPL", 1, 10000⟩] := by
  have h := c3_confidence_gate ⟨0.6, 3, 0.05, 5⟩ ["AAPL"]
    (BackendOutcome.parsed ⟨"adjust", "rotate", [("MSFT", 100)], 0.55⟩)
    "XLK" 0.5 [⟨"AAPL", 1, 10000⟩] (by simp)
    (by simp only [refine_allocation]; norm_num)
    (by simp only [refine_allocation]; norm_num)
  exact h.1

/-- Counterexample to C3 as stated: `run_both_phases` in
`two_phase_strategy.py` consults only the action, so an `adjust` with
confidence 0.55 — below the default threshold 0.6 — still replaces the
Phase-1 allocation. -/
theorem c3_counterexample :
    run_both_phases_final [("AAPL", 100)]
      ⟨"XLK", 0.5, [("AAPL", 100)], "adjust", "rotate", [("MSFT", 100)], 0.55, none⟩ =
      [("MSFT", 100)] ∧
    ([("MSFT", (100 : ℚ))] : List (String × ℚ)) ≠ [("AAPL", 100)] ∧
    (0.55 : ℚ) < 0.6 := by
  refine ⟨by simp [run_both_phases_final], by simp, by norm_num⟩

/-- Helper: marking with an empty timestamp list rewrites nothing. -/
theorem mark_decisions_evaluated_nil (decisions : List Phase2Decision) :
    mark_decisions_evaluated decisions [] = decisions := by
  simp [mark_decisions_evaluated]

/-- Helper: after `run_evaluations`, no decision is pending any more (every
previously pending decision got its `evaluated` flag set, and the others
were not pending to begin with). -/
theorem run_evaluations_no_pending (fetch : ℕ → String → Option ℚ) (cutoff : ℕ)
    (decisions : List Phase2Decision) :
    get_pending_evaluations cutoff
      (mark_decisions_evaluated decisions
        ((get_pending_evaluations cutoff decisions).map (·.timestamp))) = [] := by
  unfold get_pending_evaluations mark_decisions_evaluated
  rw [List.filter_eq_nil_iff]
  intro x hx
  rcases List.mem_map.mp hx with ⟨d, hd, rfl⟩
  by_cases hts : d.timestamp ∈
      (decisions.filter (fun d => !d.evaluated && d.timestamp < cutoff)).map (·.timestamp)
  · rw [if_pos hts]; simp
  · rw [if_neg hts]
    simp only [Bool.and_eq_true, Bool.not_eq_true', decide_eq_true_eq, not_and]
    intro hev hlt
    exact hts (List.mem_map.mpr ⟨d, List.mem_filter.mpr ⟨hd, by simp [hev, hlt]⟩, rfl⟩)

/-- C2 (amended): `evaluate_decision` itself never checks the `evaluated`
flag and appends a record on every call (see the counterexample);
idempotence holds one level up: `run_evaluations` only processes decisions
with `evaluated = false` and then marks every processed decision, so a
second `run_evaluations` over the resulting state changes nothing and
appends no record. -/
theorem c2_second_run_is_noop (fetch : ℕ → String → Option ℚ) (cutoff : ℕ)
    (decisions : List Phase2Decision) (evaluations : List EvaluationRecord) :
    run_evaluations fetch cutoff
      (run_evaluations fetch cutoff decisions evaluations).decisions
      (run_evaluations fetch cutoff decisions evaluations).evaluations =
    { decisions := (run_evaluations fetch cutoff decisions evaluations).decisions
      evaluations := (run_evaluations fetch cutoff decisions evaluations).evaluations
      results := [] } := by
  simp only [run_evaluations, run_evaluations_no_pending fetch cutoff decisions,
    List.filterMap_nil, List.append_nil, List.map_nil, mark_decisions_evaluated_nil]

/-- Counterexample to C2 as stated: a decision whose `evaluated` flag is
already `true` still produces a fresh EvaluationRecord on every direct
`evaluate_decision` call — two calls append two records. -/
theorem c2_counterexample :
    ((evaluate_decision_log (fun _ _ => some 1)
        (evaluate_decision_log (fun _ _ => some 1) []
          ⟨0, "XLK", 0, "adjust", 1, [("A", 1)], [("A", 1)], "", true⟩).1
        ⟨0, "XLK", 0, "adjust", 1, [("A", 1)], [("A", 1)], "", true⟩).1).length = 2 ∧
    (Phase2Decision.evaluated ⟨0, "XLK", 0, "adjust", 1, [("A", 1)], [("A", 1)], "", true⟩) = true := by
  constructor
  · rcases hO : evaluate_decision (fun _ _ => some 1)
        ⟨0, "XLK", 0, "adjust", 1, [("A", 1)], [("A", 1)], "", true⟩ with _ | r
    · exfalso
      norm_num [evaluate_decision, calculate_portfolio_return, normalize_allocation,
        List.filterMap_cons] at hO
      exact Option.noConfusion hO
    · simp [evaluate_decision_log, hO]
  · rfl

/-- Helper: a produced EvaluationRecord carries the timestamp of the
decision it evaluates. -/
theorem evaluate_decision_timestamp (fetch : ℕ → String → Option ℚ)
    (d : Phase2Decision) (r : EvaluationRecord)
    (h : evaluate_decision fetch d = some r) :
    r.decision_timestamp = d.timestamp := by
  simp only [evaluate_decision] at h
  rcases hA : calculate_portfolio_return fetch d.timestamp
      (normalize_allocation d.original_allocation) with _ | a <;>
    rcases hB : calculate_portfolio_return fetch d.timestamp
        (normalize_allocation d.final_allocation) with _ | b <;>
    rw [hA, hB] at h
  · exact Option.noConfusion h
  · exact Option.noConfusion h
  · exact Option.noConfusion h
  · rw [← Option.some.inj h]

/-- C10: `run_evaluations` marks every pending decision as evaluated even
when `evaluate_decision` returned `None` for it (portfolio return
unavailable): the marked copy lands in the rewritten file, no
EvaluationRecord with that decision's timestamp is among the results (for
distinct timestamps), and the decision is not pending in any later run. -/
theorem c10_failed_evaluations_marked (fetch : ℕ → String → Option ℚ)
    (cutoff : ℕ) (decisions : List Phase2Decision)
    (evaluations : List EvaluationRecord) (d : Phase2Decision)
    (hmem : d ∈ decisions) (hev : d.evaluated = false)
    (hready : d.timestamp < cutoff)
    (hnone : evaluate_decision fetch d = none) :
    ({ d with evaluated := true } ∈
      (run_evaluations fetch cutoff decisions evaluations).decisions) ∧
    ((decisions.map (·.timestamp)).Nodup →
      ∀ r ∈ (run_evaluations fetch cutoff decisions evaluations).results,
        r.decision_timestamp ≠ d.timestamp) ∧
    (∀ d2 ∈ get_pending_evaluations cutoff
        (run_evaluations fetch cutoff decisions evaluations).decisions,
      d2.timestamp ≠ d.timestamp) := by
  have hdp : d ∈ get_pending_evaluations cutoff decisions :=
    List.mem_filter.mpr ⟨hmem, by simp [hev, hready]⟩
  have hts : d.timestamp ∈ (get_pending_evaluations cutoff decisions).map (·.timestamp) :=
    List.mem_map.mpr ⟨d, hdp, rfl⟩
  refine ⟨?_, ?_, ?_⟩
  · exact List.mem_map.mpr ⟨d, hmem, by rw [if_pos hts]⟩
  · intro hnd r hr hEq
    rcases List.mem_filterMap.mp hr with ⟨dp, hdpmem, hdpsome⟩
    have h1 : dp.timestamp = d.timestamp := by
      rw [← evaluate_decision_timestamp fetch dp r hdpsome]
      exact hEq
    have hdpin : dp ∈ decisions := (List.mem_filter.mp hdpmem).1
    have hdpd : dp = d := List.inj_on_of_nodup_map hnd hdpin hmem h1
    rw [hdpd, hnone] at hdpsome
    exact Option.noConfusion hdpsome
  · intro d2 hd2 hEq
    have h2 := List.mem_filter.mp hd2
    rcases List.mem_map.mp h2.1 with ⟨d0, hd0, hfd0⟩
    by_cases hts0 : d0.timestamp ∈ (get_pending_evaluations cutoff decisions).map (·.timestamp)
    · rw [if_pos hts0] at hfd0
      have hpred := h2.2
      rw [← hfd0] at hpred
      simp at hpred
    · rw [if_neg hts0] at hfd0
      apply hts0
      rw [hfd0, hEq]
      exact hts

/-- Witness for C10: one pending decision whose prices are unavailable is
marked evaluated even though it produced no record. -/
theorem c10_witness :
    (⟨0, "XLK", 0, "keep", 1, [("A", 1)], [("A", 1)], "", true⟩ : Phase2Decision) ∈
      (run_evaluations (fun _ _ => none) 1
        [⟨0, "XLK", 0, "keep", 1, [("A", 1)], [("A", 1)], "", false⟩] []).decisions :=
  (c10_failed_evaluations_marked (fun _ _ => none) 1
    [⟨0, "XLK", 0, "keep", 1, [("A", 1)], [("A", 1)], "", false⟩] []
    ⟨0, "XLK", 0, "keep", 1, [("A", 1)], [("A", 1)], "", false⟩
    (by simp) rfl (by norm_num)
    (by norm_num [evaluate_decision, calculate_portfolio_return, normalize_allocation,
      List.filterMap_cons])).1

/-- C1 (amended): every asset surviving `parse_portfolio_response` carries a
ticker from the candidate set, on both the structured and the fallback
path.  Weights, however, are normalized over the FULL parsed response
before invalid tickers are dropped, so the surviving weights sum to 1.0
exactly when every parsed ticker was valid (and the parsed weights had a
positive total); on the fallback path each mentioned candidate gets weight
1/n for n mentioned candidates, so the (at most 5) kept tickers' weights
sum to 1.0 exactly when n ≤ 5. -/
theorem c1_selection_normalization (parsedAssets : Option (List (String × ℚ)))
    (responseText : String) (availableTickers : List String) (budget : ℚ)
    (result : List SelectedAsset)
    (hres : parse_portfolio_response parsedAssets responseText availableTickers budget
      = some result) :
    (∀ a ∈ result, a.ticker ∈ availableTickers) ∧
    (∀ selected, parsedAssets = some selected →
      0 < (selected.map (·.2)).sum →
      (∀ p ∈ selected, availableTickers.contains p.1) →
      (result.map (·.weight)).sum = 1) ∧
    (parsedAssets = none →
      (availableTickers.dedup.filter (fun t => mentioned_in t responseText)).length ≤ 5 →
      (result.map (·.weight)).sum = 1) := by
  cases parsedAssets with
  | some selected0 =>
    simp only [parse_portfolio_response] at hres
    have hr := Option.some.inj hres
    refine ⟨?_, ?_, fun h => Option.noConfusion h⟩
    · intro a ha
      rw [← hr] at ha
      have hmem := List.mem_filter.mp ha
      simpa using hmem.2
    · intro selected hsel hpos hval
      injection hsel with hs
      subst hs
      rw [← hr, if_pos hpos]
      have hfil : (selected0.map fun a =>
          ({ ticker := a.1, weight := a.2 / (selected0.map (·.2)).sum
             amount := round2 (a.2 / (selected0.map (·.2)).sum * budget) } : SelectedAsset)).filter
            (fun a => availableTickers.contains a.ticker) =
          selected0.map fun a =>
          ({ ticker := a.1, weight := a.2 / (selected0.map (·.2)).sum
             amount := round2 (a.2 / (selected0.map (·.2)).sum * budget) } : SelectedAsset) := by
        apply List.filter_eq_self.mpr
        intro a ha
        rcases List.mem_map.mp ha with ⟨p, hp, rfl⟩
        exact hval p hp
      rw [hfil, List.map_map]
      show (selected0.map fun p => p.2 / (selected0.map (·.2)).sum).sum = 1
      simp only [div_eq_mul_inv]
      rw [List.sum_map_mul_right]
      exact mul_inv_cancel₀ (ne_of_gt hpos)
  | none =>
    simp only [parse_portfolio_response] at hres
    rcases hM : (availableTickers.dedup.filter fun t => mentioned_in t responseText).isEmpty
      with _ | _
    · rw [hM] at hres
      simp only [Bool.false_eq_true, if_false] at hres
      have hr := Option.some.inj hres
      refine ⟨?_, fun selected h => Option.noConfusion h, ?_⟩
      · intro a ha
        rw [← hr] at ha
        rcases List.mem_map.mp ha with ⟨t, ht, rfl⟩
        have h1 := List.mem_of_mem_take ht
        exact List.mem_dedup.mp (List.mem_filter.mp h1).1
      · intro _ hlen
        rw [← hr, List.take_of_length_le hlen, List.map_map]
        show ((availableTickers.dedup.filter fun t => mentioned_in t responseText).map
          (fun _ => 1 / (((availableTickers.dedup.filter fun t =>
            mentioned_in t responseText).length : ℕ) : ℚ))).sum = 1
        have hne := List.isEmpty_eq_false.mp hM
        have h0 : ((availableTickers.dedup.filter fun t => mentioned_in t responseText).length : ℚ) ≠ 0 := by
          rw [Nat.cast_ne_zero, Ne, List.length_eq_zero]
          exact hne
        rw [List.map_const', List.sum_replicate, nsmul_eq_mul, mul_one_div, div_self h0]
    · rw [hM] at hres
      simp at hres

/-- Counterexample to C1 as stated: the parsed response names a valid ticker
and an invalid one with equal weights; weights are normalized to 1/2 each
BEFORE the invalid ticker is dropped, so the returned weights sum to 1/2,
not 1.0. -/
theorem c1_counterexample :
    (parse_portfolio_response (some [("AAA", 1), ("BBB", 1)]) "" ["AAA"] 100).map
      (fun l => (l.map (·.weight)).sum) = some (1/2) ∧
    ((1 : ℚ)/2) ≠ 1 := by
  constructor
  · norm_num [parse_portfolio_response, List.filter_cons]
    rw [if_neg (by decide)]
    simp
  · norm_num

/-- Witness for C1 (amended): a response whose only ticker is valid keeps
weights summing to 1. -/
theorem c1_witness :
    (([⟨"AAA", 1, 100⟩] : List SelectedAsset).map (·.weight)).sum = 1 :=
  (c1_selection_normalization (some [("AAA", 1)]) "" ["AAA"] 100 [⟨"AAA", 1, 100⟩]
    (by norm_num [parse_portfolio_response, round2, ratRound])).2.1
    [("AAA", 1)] rfl (by norm_num) (by decide)

/-- Helper: normalizing a nonempty list of positive weights yields
nonnegative weights summing to exactly 100. -/
theorem normalize_to_100_spec (l : List (String × ℚ))
    (hpos : ∀ p ∈ l, 0 < p.2) (hne : l ≠ []) :
    ((normalize_to_100 l).map (·.2)).sum = 100 ∧
    ∀ p ∈ normalize_to_100 l, 0 ≤ p.2 := by
  have htot : 0 < (l.map (·.2)).sum := by
    apply List.sum_pos
    · intro x hx
      rcases List.mem_map.mp hx with ⟨p, hp, rfl⟩
      exact hpos p hp
    · simpa using hne
  constructor
  · unfold normalize_to_100
    rw [List.map_map]
    show (l.map fun p => p.2 / (l.map (·.2)).sum * 100).sum = 100
    have hrw : ∀ p : String × ℚ,
        p.2 / (l.map (·.2)).sum * 100 = p.2 * (((l.map (·.2)).sum)⁻¹ * 100) := by
      intro p
      rw [div_eq_mul_inv, mul_assoc]
    simp only [hrw]
    rw [List.sum_map_mul_right, ← mul_assoc, mul_inv_cancel₀ (ne_of_gt htot), one_mul]
  · intro p hp
    unfold normalize_to_100 at hp
    rcases List.mem_map.mp hp with ⟨q, hq, rfl⟩
    exact mul_nonneg (div_nonneg (le_of_lt (hpos q hq)) (le_of_lt htot)) (by norm_num)

/-- C8: for each of the six scenarios (benchmark, spy_only, momentum,
aggressive, defensive, contrarian) and EVERY map of sector sentiment
scores, `calculate_rebalance` returns sector weights that sum to 100
within ±0.01 and are all nonnegative. -/
theorem c8_scenario_weights (scenario : String) (scores : String → ℚ)
    (h : scenario = "benchmark" ∨ scenario = "spy_only" ∨ scenario = "momentum" ∨
      scenario = "aggressive" ∨ scenario = "defensive" ∨ scenario = "contrarian") :
    |((calculate_rebalance scenario scores).map (·.2)).sum - 100| ≤ 1/100 ∧
    ∀ p ∈ calculate_rebalance scenario scores, 0 ≤ p.2 := by
  rcases h with rfl | rfl | rfl | rfl | rfl | rfl
  · -- benchmark
    have hcr : calculate_rebalance "benchmark" scores =
        trackedSectors.map (fun s => (s, 100 / (trackedSectors.length : ℚ))) := rfl
    rw [hcr]
    constructor
    · have hsum : ((trackedSectors.map fun s =>
          (s, 100 / (trackedSectors.length : ℚ))).map (·.2)).sum = 100 := by
        norm_num [trackedSectors]
      rw [hsum, sub_self, abs_zero]
      norm_num
    · intro p hp
      rcases List.mem_map.mp hp with ⟨s, hs, rfl⟩
      norm_num [trackedSectors]
  · -- spy_only
    have hcr : calculate_rebalance "spy_only" scores = [("SPY", 100)] := rfl
    rw [hcr]
    constructor
    · norm_num
    · intro p hp
      rw [List.mem_singleton] at hp
      rw [hp]
      norm_num
  · -- momentum
    have hcr : calculate_rebalance "momentum" scores =
        normalize_to_100 (trackedSectors.map (fun s =>
          (s, max 2 (min 20 (100 / (trackedSectors.length : ℚ) + scores s * 50))))) := rfl
    rw [hcr]
    have hspec := normalize_to_100_spec (trackedSectors.map (fun s =>
        (s, max 2 (min 20 (100 / (trackedSectors.length : ℚ) + scores s * 50)))))
      (by
        intro p hp
        rcases List.mem_map.mp hp with ⟨s, hs, rfl⟩
        exact lt_of_lt_of_le (by norm_num) (le_max_left _ _))
      (by simp [trackedSectors])
    refine ⟨?_, hspec.2⟩
    rw [hspec.1, sub_self, abs_zero]
    norm_num
  · -- aggressive
    have hcr : calculate_rebalance "aggressive" scores =
        trackedSectors.map (fun s =>
          (s, if s ∈ (trackedSectors.mergeSort (fun a b => scores b ≤ scores a)).take 3
              then (30 : ℚ) else 1)) := rfl
    rw [hcr]
    generalize hM : trackedSectors.mergeSort (fun a b => scores b ≤ scores a) = M
    have hperm : M.Perm trackedSectors := by
      rw [← hM]; exact List.mergeSort_perm _ _
    have hnodupM : M.Nodup := hperm.nodup_iff.mpr (by decide)
    have hlenM : M.length = 13 := by rw [hperm.length_eq]; rfl
    generalize ht : M.take 3 = t
    have hsum : ((trackedSectors.map fun s =>
        (s, if s ∈ t then (30 : ℚ) else 1)).map (·.2)).sum = 100 := by
      rw [List.map_map]
      have hcomp : ((fun x : String × ℚ => x.2) ∘ (fun s => (s, if s ∈ t then (30 : ℚ) else 1))) =
          fun s => if s ∈ t then (30 : ℚ) else 1 := rfl
      rw [hcomp]
      rw [← (hperm.map (fun s => if s ∈ t then (30 : ℚ) else 1)).sum_eq]
      conv_lhs => rw [← List.take_append_drop 3 M]
      rw [List.map_append, List.sum_append, ht]
      have h30 : t.map (fun s => if s ∈ t then (30 : ℚ) else 1) = t.map (fun _ => (30 : ℚ)) :=
        List.map_congr_left (fun s hs => if_pos hs)
      have h1 : (M.drop 3).map (fun s => if s ∈ t then (30 : ℚ) else 1) =
          (M.drop 3).map (fun _ => (1 : ℚ)) :=
        List.map_congr_left (fun s hs => if_neg (fun hmem =>
          (List.disjoint_take_drop hnodupM le_rfl) (ht.symm ▸ hmem) hs))
      rw [h30, h1, List.map_const', List.map_const', List.sum_replicate, List.sum_replicate]
      have hlt : t.length = 3 := by
        rw [← ht, List.length_take, hlenM]
        decide
      have hld : (M.drop 3).length = 10 := by rw [List.length_drop, hlenM]
      rw [hlt, hld]
      norm_num
    constructor
    · rw [hsum, sub_self, abs_zero]
      norm_num
    · intro p hp
      rcases List.mem_map.mp hp with ⟨s, hs, rfl⟩
      dsimp only
      split_ifs <;> norm_num
  · -- defensive
    have hcr : calculate_rebalance "defensive" scores =
        normalize_to_100 (trackedSectors.map (fun s =>
          let base : ℚ := if s ∈ defensiveBase then 15 else 3
          (s, if scores s > 0.4 then base + 5
              else if scores s < -0.3 then max 1 (base - 5)
              else base))) := rfl
    rw [hcr]
    have hspec := normalize_to_100_spec (trackedSectors.map (fun s =>
        let base : ℚ := if s ∈ defensiveBase then 15 else 3
        (s, if scores s > 0.4 then base + 5
            else if scores s < -0.3 then max 1 (base - 5)
            else base)))
      (by
        intro p hp
        rcases List.mem_map.mp hp with ⟨s, hs, rfl⟩
        dsimp only
        split_ifs <;> norm_num [lt_max_iff])
      (by simp [trackedSectors])
    refine ⟨?_, hspec.2⟩
    rw [hspec.1, sub_self, abs_zero]
    norm_num
  · -- contrarian
    have hcr : calculate_rebalance "contrarian" scores =
        normalize_to_100 (trackedSectors.map (fun s =>
          (s, max 2 (min 20 (100 / (trackedSectors.length : ℚ) + -(scores s) * 50))))) := rfl
    rw [hcr]
    have hspec := normalize_to_100_spec (trackedSectors.map (fun s =>
        (s, max 2 (min 20 (100 / (trackedSectors.length : ℚ) + -(scores s) * 50)))))
      (by
        intro p hp
        rcases List.mem_map.mp hp with ⟨s, hs, rfl⟩
        exact lt_of_lt_of_le (by norm_num) (le_max_left _ _))
      (by simp [trackedSectors])
    refine ⟨?_, hspec.2⟩
    rw [hspec.1, sub_self, abs_zero]
    norm_num

/-- Witness for C8: the benchmark scenario with all-zero sentiment. -/
theorem c8_witness :
    |((calculate_rebalance "benchmark" (fun _ => 0)).map (·.2)).sum - 100| ≤ 1/100 ∧
    ∀ p ∈ calculate_rebalance "benchmark" (fun _ => 0), 0 ≤ p.2 :=
  c8_scenario_weights "benchmark" (fun _ => 0) (Or.inl rfl)

/-- Helper: folding one headline's sector list appends its score to each
bucket once per occurrence of the bucket's key in that list. -/
theorem append_score_foldl (secs : List String) (st : List (String × List ℚ)) (v : ℚ) :
    secs.foldl (fun acc sec => append_score acc sec v) st =
      st.map (fun p => (p.1, p.2 ++ List.replicate (secs.count p.1) v)) := by
  induction secs generalizing st with
  | nil => simp
  | cons s rest ih =>
    rw [List.foldl_cons, ih]
    unfold append_score
    rw [List.map_map]
    apply List.map_congr_left
    intro p hp
    by_cases hps : p.1 = s
    · simp [Function.comp, hps, List.count_cons, List.replicate_succ, List.append_assoc]
    · simp [Function.comp, hps, List.count_cons, Ne.symm hps]

/-- Helper: when every headline's sector list has no duplicates, the bucket
fold appends, for each key, exactly the scores of the headlines assigned to
that key, in order. -/
theorem bucket_headlines_filter (score : String → ℚ)
    (headlines : List (String × List String)) (st : List (String × List ℚ))
    (hnd : ∀ h ∈ headlines, h.2.Nodup) :
    bucket_headlines score st headlines =
      st.map (fun p => (p.1, p.2 ++
        (headlines.filter (fun h => h.2.contains p.1)).map (fun h => score h.1))) := by
  induction headlines generalizing st with
  | nil => simp [bucket_headlines]
  | cons h hs ih =>
    have hstep : bucket_headlines score st (h :: hs) =
        bucket_headlines score
          (h.2.foldl (fun acc2 sec => append_score acc2 sec (score h.1)) st) hs := rfl
    rw [hstep, append_score_foldl,
      ih _ (fun x hx => hnd x (List.mem_cons_of_mem h hx)), List.map_map]
    apply List.map_congr_left
    intro p hp
    have hh2 : h.2.Nodup := hnd h (List.mem_cons_self h hs)
    by_cases hc : h.2.contains p.1
    · have hmem : p.1 ∈ h.2 := by simpa using hc
      have hcount : h.2.count p.1 = 1 := List.count_eq_one_of_mem hh2 hmem
      simp [Function.comp, hcount, List.filter_cons, hc, List.append_assoc]
      rw [if_pos hmem]
      simp
    · have hmem : p.1 ∉ h.2 := by simpa using hc
      have hcount : h.2.count p.1 = 0 := List.count_eq_zero.mpr hmem
      simp [Function.comp, hcount, List.filter_cons, hc]
      rw [if_neg hmem]

/-- Helper: classification output has no duplicate sector codes when the
sector table's keys are distinct. -/
theorem classify_sectors_nodup (title : String)
    (sectors : List (String × List String))
    (h : (sectors.map (·.1)).Nodup) : (classify_sectors title sectors).Nodup := by
  unfold classify_sectors
  by_cases hM : ((sectors.filter (fun si =>
      si.2.any (fun kw => keyword_matches title kw))).map (·.1)).isEmpty
  · rw [if_pos hM]
    exact List.nodup_singleton _
  · rw [if_neg hM]
    exact List.Nodup.sublist (List.Sublist.map (·.1) (List.filter_sublist sectors)) h

/-- Helper: membership in `classify_sectors` is exactly "some keyword of
that sector occurs in the title, or the code is `general` and no sector's
keyword occurs". -/
theorem mem_classify_sectors (title : String)
    (sectors : List (String × List String)) (c : String) :
    c ∈ classify_sectors title sectors ↔
      ((∃ kws, (c, kws) ∈ sectors ∧ ∃ kw ∈ kws, keyword_matches title kw = true) ∨
       (c = "general" ∧ ∀ p ∈ sectors, ∀ kw ∈ p.2, keyword_matches title kw = false)) := by
  unfold classify_sectors
  by_cases hM : ((sectors.filter (fun si =>
      si.2.any (fun kw => keyword_matches title kw))).map (·.1)).isEmpty
  · rw [if_pos hM]
    have hfil : (sectors.filter fun si =>
        si.2.any fun kw => keyword_matches title kw) = [] :=
      List.map_eq_nil.mp (List.isEmpty_iff.mp hM)
    have hforall : ∀ p ∈ sectors, ∀ kw ∈ p.2, keyword_matches title kw = false := by
      intro p hp kw hkw
      cases hKM : keyword_matches title kw
      · rfl
      · exfalso
        have hpmem : p ∈ sectors.filter fun si =>
            si.2.any fun kw => keyword_matches title kw :=
          List.mem_filter.mpr ⟨hp, List.any_eq_true.mpr ⟨kw, hkw, hKM⟩⟩
        rw [hfil] at hpmem
        exact List.not_mem_nil p hpmem
    constructor
    · intro hc
      rw [List.mem_singleton] at hc
      exact Or.inr ⟨hc, hforall⟩
    · rintro (⟨kws, hmem, kw, hkw, hb⟩ | ⟨hcg, _⟩)
      · have := hforall (c, kws) hmem kw hkw
        rw [hb] at this
        exact Bool.noConfusion this
      · rw [hcg]
        exact List.mem_singleton.mpr rfl
  · rw [if_neg hM]
    constructor
    · intro hc
      rcases List.mem_map.mp hc with ⟨p, hpf, rfl⟩
      have hpm := List.mem_filter.mp hpf
      rcases List.any_eq_true.mp hpm.2 with ⟨kw, hkw, hb⟩
      left
      refine ⟨p.2, ?_, kw, hkw, hb⟩
      rw [Prod.mk.eta]
      exact hpm.1
    · rintro (⟨kws, hmem, kw, hkw, hb⟩ | ⟨hcg, hall⟩)
      · exact List.mem_map.mpr ⟨(c, kws),
          List.mem_filter.mpr ⟨hmem, List.any_eq_true.mpr ⟨kw, hkw, hb⟩⟩, rfl⟩
      · exfalso
        apply hM
        have hfil : (sectors.filter fun si =>
            si.2.any fun kw => keyword_matches title kw) = [] := by
          rw [List.filter_eq_nil_iff]
          intro p hp hpb
          rcases List.any_eq_true.mp hpb with ⟨kw, hkw, hb⟩
          have := hall p hp kw hkw
          rw [this] at hb
          exact Bool.noConfusion hb
        rw [hfil]
        rfl

/-- Helper: the BUY/SELL/HOLD signal thresholds, characterized. -/
theorem signal_of_spec (avg : ℚ) :
    (signal_of avg = "BUY" ↔ 0.25 < avg) ∧
    (signal_of avg = "SELL" ↔ avg < -0.25) ∧
    (signal_of avg = "HOLD" ↔ ¬(0.25 < avg) ∧ ¬(avg < -0.25)) := by
  unfold signal_of
  split_ifs with hB hS
  · exact ⟨iff_of_true rfl hB, iff_of_false (by decide) (by linarith),
      iff_of_false (by decide) (fun h => h.1 hB)⟩
  · exact ⟨iff_of_false (by decide) hB, iff_of_true rfl hS,
      iff_of_false (by decide) (fun h => h.2 hS)⟩
  · exact ⟨iff_of_false (by decide) hB, iff_of_false (by decide) hS,
      iff_of_true rfl ⟨hB, hS⟩⟩

/-- C9: every row of the aggregated sector sentiment is the arithmetic mean
(rounded to 3 decimals) of the scores of exactly the headlines assigned to
that sector, with the BUY/SELL/HOLD signal derived from the unrounded mean
by the fixed ±0.25 thresholds; and a headline is assigned to precisely the
sectors with a matching keyword, or to `general` when none match. -/
theorem c9_sentiment_aggregation (score : String → ℚ) (titles : List String)
    (sectors : List (String × List String))
    (hnd : (sectors.map (·.1)).Nodup) (c : String) (ss : SectorSentiment)
    (hm : (c, ss) ∈ harvest_sector_sentiment score titles sectors) :
    titles.filter (fun t => (classify_sectors t sectors).contains c) ≠ [] ∧
    ss.count = (titles.filter (fun t => (classify_sectors t sectors).contains c)).length ∧
    ss.score = round3
      (((titles.filter (fun t => (classify_sectors t sectors).contains c)).map score).sum /
       ((titles.filter (fun t => (classify_sectors t sectors).contains c)).length : ℚ)) ∧
    (ss.signal = "BUY" ↔ 0.25 <
      ((titles.filter (fun t => (classify_sectors t sectors).contains c)).map score).sum /
      ((titles.filter (fun t => (classify_sectors t sectors).contains c)).length : ℚ)) ∧
    (ss.signal = "SELL" ↔
      ((titles.filter (fun t => (classify_sectors t sectors).contains c)).map score).sum /
      ((titles.filter (fun t => (classify_sectors t sectors).contains c)).length : ℚ) < -0.25) ∧
    (ss.signal = "HOLD" ↔
      ¬(0.25 <
        ((titles.filter (fun t => (classify_sectors t sectors).contains c)).map score).sum /
        ((titles.filter (fun t => (classify_sectors t sectors).contains c)).length : ℚ)) ∧
      ¬(((titles.filter (fun t => (classify_sectors t sectors).contains c)).map score).sum /
        ((titles.filter (fun t => (classify_sectors t sectors).contains c)).length : ℚ) < -0.25)) ∧
    (∀ t, c ∈ classify_sectors t sectors ↔
      ((∃ kws, (c, kws) ∈ sectors ∧ ∃ kw ∈ kws, keyword_matches t kw = true) ∨
       (c = "general" ∧ ∀ p ∈ sectors, ∀ kw ∈ p.2, keyword_matches t kw = false))) := by
  simp only [harvest_sector_sentiment, aggregate_sentiment] at hm
  have hndh : ∀ h ∈ (titles.map fun t => (t, classify_sectors t sectors)), h.2.Nodup := by
    intro h hh
    rcases List.mem_map.mp hh with ⟨t, ht, rfl⟩
    exact classify_sectors_nodup t sectors hnd
  rw [bucket_headlines_filter score _ _ hndh] at hm
  rcases List.mem_map.mp hm with ⟨p, hpf, hmk⟩
  have hpd := List.mem_filter.mp hpf
  have hne := hpd.2
  rcases List.mem_map.mp hpd.1 with ⟨q, hq, hFq⟩
  rcases List.mem_map.mp hq with ⟨c0, hc0, rfl⟩
  rw [← hFq] at hmk hne
  simp only [List.nil_append] at hmk hne
  injection hmk with h1 h2
  subst h1
  subst h2
  have hXm : (((titles.map fun t => (t, classify_sectors t sectors)).filter
      (fun h => h.2.contains c0)).map (fun h => score h.1)) =
      (titles.filter (fun t => (classify_sectors t sectors).contains c0)).map score := by
    rw [List.filter_map, List.map_map]
    rfl
  rw [hXm] at hne ⊢
  simp only [List.length_map] at hne ⊢
  refine ⟨?_, trivial, trivial, (signal_of_spec _).1, (signal_of_spec _).2.1,
    (signal_of_spec _).2.2, fun t => mem_classify_sectors t sectors c0⟩
  intro hnil
  rw [hnil] at hne
  simp at hne

/-- Witness for C9: a single headline matching no sector keyword lands in
`general` with score 0 and a HOLD signal. -/
theorem c9_witness :
    (({ score := 0, count := 1, signal := "HOLD" } : SectorSentiment)).count =
      (["profit up"].filter (fun t =>
        (classify_sectors t [("XLK", ["tech"])]).contains "general")).length := by
  have hm : ("general", ({ score := 0, count := 1, signal := "HOLD" } : SectorSentiment)) ∈
      harvest_sector_sentiment (fun _ => 0) ["profit up"] [("XLK", ["tech"])] := by
    have hb : bucket_headlines (fun _ => 0)
        [("XLK", ([] : List ℚ)), ("general", ([] : List ℚ))]
        [("profit up", classify_sectors "profit up" [("XLK", ["tech"])])] =
        [("XLK", ([] : List ℚ)), ("general", [0])] := by decide
    simp only [harvest_sector_sentiment, aggregate_sentiment]
    norm_num [hb, round3, ratRound, signal_of]
  exact (c9_sentiment_aggregation (fun _ => 0) ["profit up"] [("XLK", ["tech"])]
    (by decide) "general" ⟨0, 1, "HOLD"⟩ hm).2.1
